import Mathlib

/-!
Shallow embedding of the Game of Life universe from `src/lib.rs`
(`wasm_game_of_life`).

Modelling conventions:
* Rust `Vec<Cell>` is a `List Cell`; the panicking read `v[i]` is
  `List.get?` and the panicking write `v[i] = c` is `vecSet`; `none`
  models a panic, and the `Option` monad propagates it.
* Rust `u32` values are `Nat`.  No arithmetic in the modelled code can
  overflow `u32` on the inputs the claims quantify over, and `u32`
  subtraction only occurs as `width - 1` / `height - 1` with the
  dimension at least 1, so `Nat` subtraction agrees with it.
* The `f64` arithmetic in `toggle_cells_between` is modelled with `ℚ`.
  Every operation performed there on the claims' inputs (casting a
  `u32`, subtraction, absolute value, comparison, negation, division
  and accumulation of exactly representable values, rounding) is exact
  in `f64` for the magnitudes involved, so `ℚ` computes the same
  values.  Rust `f64::round` rounds half away from zero and the `as
  u32` cast clamps negatives to 0; `fun q => (round q).toNat` agrees
  with that composition on every rational (for nonnegative values the
  two rounding modes coincide, and every negative result is clamped to
  0 either way).
-/

/-- The two-valued cell state from `lib.rs`. -/
inductive Cell : Type where
  | Dead : Cell
  | Alive : Cell
deriving DecidableEq, Repr

/-- Numeric contribution of a cell to a neighbor count: the `match` in
`get_live_neighbor_count` (`Dead => 0, Alive => 1`). -/
def cellValue : Cell → Nat
  | Cell.Dead => 0
  | Cell.Alive => 1

/-- The inline `match` in `toggle_cell_at`: `Alive => Dead, Dead => Alive`. -/
def cellToggled : Cell → Cell
  | Cell.Alive => Cell.Dead
  | Cell.Dead => Cell.Alive

/-- Rust `const DEFAULT_SQUARE_SIZE: u32 = 8`. -/
def DEFAULT_SQUARE_SIZE : Nat := 8

/-- Rust `const DEFAULT_SPACING: u32 = 1`. -/
def DEFAULT_SPACING : Nat := 1

/-- The `Universe` struct from `lib.rs`. -/
structure Universe : Type where
  buffered_cells_ : List Cell
  cells : List Cell
  width : Nat
  height : Nat
  square_size_px : Nat
  square_spacing_px : Nat
deriving DecidableEq, Repr

/-- Rust `Vec` index-assignment `v[i] = c`: in bounds it updates,
out of bounds it panics (`none`). -/
def vecSet (l : List Cell) (i : Nat) (c : Cell) : Option (List Cell) :=
  if i < l.length then some (l.set i c) else none

namespace Universe

/-- Rust `fn get_cell_idx(&self, x: u32, y: u32) -> usize`. -/
def get_cell_idx (u : Universe) (x y : Nat) : Nat :=
  (y % u.height) * u.width + (x % u.width)

/-- Rust `pub fn get_cell_at(&self, x: u32, y: u32) -> Cell`; the `Vec` read
may panic, hence `Option`. -/
def get_cell_at (u : Universe) (x y : Nat) : Option Cell :=
  u.cells.get? (u.get_cell_idx x y)

/-- Rust `pub fn set_cell_at(&mut self, x: u32, y: u32, cell_type: Cell)`. -/
def set_cell_at (u : Universe) (x y : Nat) (cell_type : Cell) : Option Universe :=
  if x < u.width ∧ y < u.height then
    (vecSet u.cells (u.get_cell_idx x y) cell_type).map
      (fun cs => { u with cells := cs })
  else
    some u

/-- Rust `pub fn toggle_cell_at(&mut self, x: u32, y: u32)`. -/
def toggle_cell_at (u : Universe) (x y : Nat) : Option Universe :=
  (u.get_cell_at x y).bind (fun c => u.set_cell_at x y (cellToggled c))

/-- The nested offset loops of `get_live_neighbor_count`:
`dx` ranges over `[width - 1, 0, 1]` (outer), `dy` over
`[height - 1, 0, 1]` (inner). -/
def offsetPairs (w h : Nat) : List (Nat × Nat) :=
  [w - 1, 0, 1] ×ˢ [h - 1, 0, 1]

/-- The body of the `get_live_neighbor_count` loop, accumulating
`count` over the remaining offset pairs. -/
def countNeighbors (u : Universe) (x y : Nat) : List (Nat × Nat) → Nat → Option Nat
  | [], count => some count
  | p :: ps, count =>
    if p.1 = 0 ∧ p.2 = 0 then
      u.countNeighbors x y ps count
    else
      (u.get_cell_at ((x + p.1) % u.width) ((y + p.2) % u.height)).bind
        (fun c => u.countNeighbors x y ps (count + cellValue c))

/-- Rust `fn get_live_neighbor_count(&self, x: u32, y: u32) -> u32`. -/
def get_live_neighbor_count (u : Universe) (x y : Nat) : Option Nat :=
  u.countNeighbors x y (offsetPairs u.width u.height) 0

/-- The `match (self.cells[idx], self.get_live_neighbor_count(x, y))`
rule table inside `tick`, arms in source order (first match wins). -/
def next_cell (c : Cell) (n : Nat) : Cell :=
  if n < 2 then Cell.Dead
  else if (c = Cell.Alive ∧ n = 2) ∨ n = 3 then Cell.Alive
  else if n > 3 then Cell.Dead
  else c

/-- The nested `for x in 0..width { for y in 0..height { ... } }`
iteration order: `x` outer, `y` inner. -/
def loopPairs (w h : Nat) : List (Nat × Nat) :=
  (List.range w) ×ˢ (List.range h)

/-- The write loop of `tick`: reads only `u.cells`, writes the
accumulating back buffer. -/
def tickWrite (u : Universe) : List (Nat × Nat) → List Cell → Option (List Cell)
  | [], buf => some buf
  | p :: ps, buf =>
    (u.cells.get? (u.get_cell_idx p.1 p.2)).bind (fun c =>
      (u.get_live_neighbor_count p.1 p.2).bind (fun n =>
        (vecSet buf (u.get_cell_idx p.1 p.2) (next_cell c n)).bind (fun buf' =>
          u.tickWrite ps buf')))

/-- Rust `pub fn tick(&mut self)`: fill the back buffer from the current
cells, then `std::mem::swap` the two buffers. -/
def tick (u : Universe) : Option Universe :=
  (u.tickWrite (loopPairs u.width u.height) u.buffered_cells_).map
    (fun buf => { u with cells := buf, buffered_cells_ := u.cells })

/-- Rust `let x_is_param = delta_y.abs() < delta_x.abs();` from
`toggle_cells_between`. -/
def x_is_param (x1 y1 x2 y2 : Nat) : Bool :=
  decide (|(y2 : ℚ) - (y1 : ℚ)| < |(x2 : ℚ) - (x1 : ℚ)|)

/-- The `x_is_param` branch of `toggle_cells_between`: walk `x` over
`(x1+1)..x2`, accumulating `y += slope` and toggling at the rounded
`y`.  `(round y).toNat` models `y.round() as u32`. -/
def xWalkLoop (slope : ℚ) : List Nat → ℚ → Universe → Option Universe
  | [], _, u => some u
  | x :: xs, y, u =>
    (u.toggle_cell_at x (round (y + slope)).toNat).bind
      (fun u' => xWalkLoop slope xs (y + slope) u')

/-- The `x_is_param` branch with its loop range `(x1 + 1)..x2`. -/
def xWalk (u : Universe) (x1 x2 : Nat) (y0 slope : ℚ) : Option Universe :=
  xWalkLoop slope (List.range' (x1 + 1) (x2 - (x1 + 1))) y0 u

/-- The `y_is_param` branch of `toggle_cells_between`: walk `y` over
`(y1+1)..y2`, accumulating `x += slope` and toggling at the rounded
`x`. -/
def yWalkLoop (slope : ℚ) : List Nat → ℚ → Universe → Option Universe
  | [], _, u => some u
  | y :: ys, x, u =>
    (u.toggle_cell_at (round (x + slope)).toNat y).bind
      (fun u' => yWalkLoop slope ys (x + slope) u')

/-- The `y_is_param` branch with its loop range `(y1 + 1)..y2`. -/
def yWalk (u : Universe) (y1 y2 : Nat) (x0 slope : ℚ) : Option Universe :=
  yWalkLoop slope (List.range' (y1 + 1) (y2 - (y1 + 1))) x0 u

/-- Rust `pub fn toggle_cells_between(&mut self, x1: u32, y1: u32, x2: u32, y2: u32)`.
The source computes `x_is_param`, conditionally swaps the endpoints and
negates both deltas when the driving axis runs backwards, then loops on
the driving axis; here the swap is inlined into each branch. -/
def toggle_cells_between (u : Universe) (x1 y1 x2 y2 : Nat) : Option Universe :=
  if x1 = x2 ∧ y1 = y2 then some u
  else if x_is_param x1 y1 x2 y2 then
    if x2 < x1 then
      xWalk u x2 x1 (y2 : ℚ) ((-((y2 : ℚ) - (y1 : ℚ))) / (-((x2 : ℚ) - (x1 : ℚ))))
    else
      xWalk u x1 x2 (y1 : ℚ) (((y2 : ℚ) - (y1 : ℚ)) / ((x2 : ℚ) - (x1 : ℚ)))
  else
    if y2 < y1 then
      yWalk u y2 y1 (x2 : ℚ) ((-((x2 : ℚ) - (x1 : ℚ))) / (-((y2 : ℚ) - (y1 : ℚ))))
    else
      yWalk u y1 y2 (x1 : ℚ) (((x2 : ℚ) - (x1 : ℚ)) / ((y2 : ℚ) - (y1 : ℚ)))

/-- The loop body sequence of `clear`. -/
def clearLoop : Universe → List (Nat × Nat) → Option Universe
  | u, [] => some u
  | u, p :: ps => (u.set_cell_at p.1 p.2 Cell.Dead).bind (fun u' => clearLoop u' ps)

/-- Rust `pub fn clear(&mut self)`. -/
def clear (u : Universe) : Option Universe :=
  clearLoop u (loopPairs u.width u.height)

/-- Rust `pub fn set_square_size(&mut self, size: u32)`. -/
def set_square_size (u : Universe) (size : Nat) : Universe :=
  { u with square_size_px := size }

/-- Rust `pub fn set_square_spacing(&mut self, spacing: u32)`. -/
def set_square_spacing (u : Universe) (spacing : Nat) : Universe :=
  { u with square_spacing_px := spacing }

/-- Rust `pub fn resize_to(&mut self, width: u32, height: u32)`: sample the
pre-resize grid at `(i % width, i / width)` for each new index `i`;
both buffers are rebuilt from the same sampling. -/
def sampleCells (u : Universe) (w : Nat) : List Nat → Option (List Cell)
  | [] => some []
  | i :: is => (u.get_cell_at (i % w) (i / w)).bind
      (fun c => (u.sampleCells w is).map (fun cs => c :: cs))

/-- Rust `pub fn resize_to(&mut self, width: u32, height: u32)`. -/
def resize_to (u : Universe) (width height : Nat) : Option Universe :=
  (u.sampleCells width (List.range (width * height))).map
    (fun cells =>
      { u with
        width := width
        height := height
        cells := cells
        buffered_cells_ := cells })

/-- Rust `pub fn new(width: u32, height: u32) -> Universe`. -/
def new (width height : Nat) : Universe :=
  let cells : List Cell :=
    (List.range (width * height)).map
      (fun i => if i % 2 = 0 ∨ i % 7 = 0 then Cell.Alive else Cell.Dead)
  { buffered_cells_ := cells
    cells := cells
    width := width
    height := height
    square_size_px := DEFAULT_SQUARE_SIZE
    square_spacing_px := DEFAULT_SPACING }

end Universe

/-- Buffer-length invariant of a `Universe` (Rust maintains it by
construction). -/
def BufferInv (u : Universe) : Prop :=
  u.cells.length = u.width * u.height ∧
    u.buffered_cells_.length = u.width * u.height

/-- Well-formedness: the length invariant plus positive dimensions. -/
def Wf (u : Universe) : Prop :=
  BufferInv u ∧ 1 ≤ u.width ∧ 1 ≤ u.height

instance (u : Universe) : Decidable (BufferInv u) :=
  inferInstanceAs (Decidable (_ ∧ _))

instance (u : Universe) : Decidable (Wf u) :=
  inferInstanceAs (Decidable (_ ∧ _ ∧ _))

/-! ## Basic index lemmas -/

lemma rowmajor_lt {x y w h : Nat} (hx : x < w) (hy : y < h) :
    y * w + x < w * h := by
  calc y * w + x < y * w + w := Nat.add_lt_add_left hx _
    _ = (y + 1) * w := (Nat.succ_mul y w).symm
    _ ≤ h * w := Nat.mul_le_mul_right w hy
    _ = w * h := Nat.mul_comm h w

lemma rowmajor_inj {w x1 y1 x2 y2 : Nat} (hx1 : x1 < w) (hx2 : x2 < w)
    (h : y1 * w + x1 = y2 * w + x2) : x1 = x2 ∧ y1 = y2 := by
  have hw : 0 < w := Nat.lt_of_le_of_lt (Nat.zero_le _) hx1
  have e1 : (y1 * w + x1) % w = x1 := by
    rw [Nat.add_comm, Nat.add_mul_mod_self_right, Nat.mod_eq_of_lt hx1]
  have e2 : (y2 * w + x2) % w = x2 := by
    rw [Nat.add_comm, Nat.add_mul_mod_self_right, Nat.mod_eq_of_lt hx2]
  have hx : x1 = x2 := by rw [← e1, ← e2, h]
  subst hx
  have hmul : y1 * w = y2 * w := by omega
  exact ⟨rfl, Nat.eq_of_mul_eq_mul_right hw hmul⟩

lemma get_cell_idx_lt (u : Universe) (hw : 1 ≤ u.width) (hh : 1 ≤ u.height)
    (x y : Nat) : u.get_cell_idx x y < u.width * u.height :=
  rowmajor_lt (Nat.mod_lt _ hw) (Nat.mod_lt _ hh)

lemma get_cell_idx_of_lt (u : Universe) {x y : Nat} (hx : x < u.width)
    (hy : y < u.height) : u.get_cell_idx x y = y * u.width + x := by
  unfold Universe.get_cell_idx
  rw [Nat.mod_eq_of_lt hx, Nat.mod_eq_of_lt hy]

lemma get_cell_idx_inj (u : Universe) {x1 y1 x2 y2 : Nat}
    (hx1 : x1 < u.width) (hy1 : y1 < u.height)
    (hx2 : x2 < u.width) (hy2 : y2 < u.height)
    (h : u.get_cell_idx x1 y1 = u.get_cell_idx x2 y2) : x1 = x2 ∧ y1 = y2 := by
  rw [get_cell_idx_of_lt u hx1 hy1, get_cell_idx_of_lt u hx2 hy2] at h
  exact rowmajor_inj hx1 hx2 h

lemma get_cell_idx_lt_length (u : Universe) (hwf : Wf u) (x y : Nat) :
    u.get_cell_idx x y < u.cells.length := by
  rw [hwf.1.1]
  exact get_cell_idx_lt u hwf.2.1 hwf.2.2 x y

lemma get_cell_at_total (u : Universe) (hwf : Wf u) (x y : Nat) :
    ∃ c, u.get_cell_at x y = some c := by
  cases hc : u.cells.get? (u.get_cell_idx x y) with
  | none =>
    exact absurd (List.get?_eq_none.mp hc)
      (Nat.not_le.mpr (get_cell_idx_lt_length u hwf x y))
  | some c => exact ⟨c, hc⟩

/-! ## Lemmas about `set_cell_at` and `toggle_cell_at` -/

lemma set_cell_at_of_lt (u : Universe) (hwf : Wf u) {x y : Nat}
    (hx : x < u.width) (hy : y < u.height) (c : Cell) :
    u.set_cell_at x y c =
      some { u with cells := u.cells.set (u.get_cell_idx x y) c } := by
  unfold Universe.set_cell_at vecSet
  rw [if_pos ⟨hx, hy⟩, if_pos (get_cell_idx_lt_length u hwf x y)]
  rfl

lemma set_cell_at_of_not_lt (u : Universe) {x y : Nat}
    (h : ¬(x < u.width ∧ y < u.height)) (c : Cell) :
    u.set_cell_at x y c = some u := by
  unfold Universe.set_cell_at
  rw [if_neg h]

lemma set_cell_at_total (u : Universe) (hwf : Wf u) (x y : Nat) (c : Cell) :
    ∃ u', u.set_cell_at x y c = some u' := by
  by_cases h : x < u.width ∧ y < u.height
  · exact ⟨_, set_cell_at_of_lt u hwf h.1 h.2 c⟩
  · exact ⟨u, set_cell_at_of_not_lt u h c⟩

lemma set_cell_at_fields {u u' : Universe} {x y : Nat} {c : Cell}
    (h : u.set_cell_at x y c = some u') :
    u'.width = u.width ∧ u'.height = u.height ∧
      u'.cells.length = u.cells.length ∧
      u'.buffered_cells_ = u.buffered_cells_ := by
  unfold Universe.set_cell_at vecSet at h
  by_cases hb : x < u.width ∧ y < u.height
  · rw [if_pos hb] at h
    by_cases hi : u.get_cell_idx x y < u.cells.length
    · rw [if_pos hi] at h
      simp only [Option.map_some', Option.some.injEq] at h
      subst h
      simp [List.length_set]
    · rw [if_neg hi] at h
      simp at h
  · rw [if_neg hb] at h
    simp only [Option.some.injEq] at h
    subst h
    exact ⟨rfl, rfl, rfl, rfl⟩

lemma set_cell_at_wf {u u' : Universe} {x y : Nat} {c : Cell} (hwf : Wf u)
    (h : u.set_cell_at x y c = some u') : Wf u' := by
  obtain ⟨hw, hh, hlen, hbuf⟩ := set_cell_at_fields h
  refine ⟨⟨?_, ?_⟩, ?_, ?_⟩
  · rw [hlen, hw, hh]; exact hwf.1.1
  · rw [hbuf, hw, hh]; exact hwf.1.2
  · rw [hw]; exact hwf.2.1
  · rw [hh]; exact hwf.2.2

lemma toggle_cell_at_fields {u u' : Universe} {x y : Nat}
    (h : u.toggle_cell_at x y = some u') :
    u'.width = u.width ∧ u'.height = u.height ∧
      u'.cells.length = u.cells.length ∧
      u'.buffered_cells_ = u.buffered_cells_ := by
  unfold Universe.toggle_cell_at at h
  obtain ⟨c, _, hset⟩ := Option.bind_eq_some.mp h
  exact set_cell_at_fields hset

lemma toggle_cell_at_wf {u u' : Universe} {x y : Nat} (hwf : Wf u)
    (h : u.toggle_cell_at x y = some u') : Wf u' := by
  unfold Universe.toggle_cell_at at h
  obtain ⟨c, _, hset⟩ := Option.bind_eq_some.mp h
  exact set_cell_at_wf hwf hset

lemma toggle_cell_at_total (u : Universe) (hwf : Wf u) (x y : Nat) :
    ∃ u', u.toggle_cell_at x y = some u' := by
  obtain ⟨c, hc⟩ := get_cell_at_total u hwf x y
  obtain ⟨u', hu'⟩ := set_cell_at_total u hwf x y (cellToggled c)
  exact ⟨u', by unfold Universe.toggle_cell_at; rw [hc]; exact hu'⟩

lemma toggle_cell_at_spec (u : Universe) (hwf : Wf u) {x y : Nat}
    (hx : x < u.width) (hy : y < u.height) :
    ∃ u', u.toggle_cell_at x y = some u' ∧ Wf u' ∧
      u'.width = u.width ∧ u'.height = u.height ∧
      u'.buffered_cells_ = u.buffered_cells_ ∧
      ∀ a b, a < u.width → b < u.height →
        u'.get_cell_at a b =
          if a = x ∧ b = y then (u.get_cell_at a b).map cellToggled
          else u.get_cell_at a b := by
  obtain ⟨c, hc⟩ := get_cell_at_total u hwf x y
  have htog : u.toggle_cell_at x y =
      some { u with cells := u.cells.set (u.get_cell_idx x y) (cellToggled c) } := by
    unfold Universe.toggle_cell_at
    rw [hc, Option.some_bind, set_cell_at_of_lt u hwf hx hy]
  refine ⟨_, htog, toggle_cell_at_wf hwf htog, rfl, rfl, rfl, ?_⟩
  intro a b ha hb
  show (u.cells.set (u.get_cell_idx x y) (cellToggled c)).get?
      (u.get_cell_idx a b) = _
  by_cases hab : a = x ∧ b = y
  · obtain ⟨hax, hby⟩ := hab
    subst hax; subst hby
    rw [List.get?_set_eq_of_lt _ (get_cell_idx_lt_length u hwf a b), if_pos ⟨rfl, rfl⟩]
    unfold Universe.get_cell_at at hc ⊢
    rw [hc]
    rfl
  · have hne : u.get_cell_idx x y ≠ u.get_cell_idx a b := by
      intro he
      exact hab ⟨(get_cell_idx_inj u ha hb hx hy he.symm).1,
        (get_cell_idx_inj u ha hb hx hy he.symm).2⟩
    rw [List.get?_set_ne _ _ hne, if_neg hab]
    rfl

/-! ## Neighbor counting -/

lemma countNeighbors_total (u : Universe) (hwf : Wf u) (x y : Nat) :
    ∀ (ps : List (Nat × Nat)) (count : Nat),
      ∃ n, u.countNeighbors x y ps count = some n := by
  intro ps
  induction ps with
  | nil => exact fun count => ⟨count, rfl⟩
  | cons p ps ih =>
    intro count
    unfold Universe.countNeighbors
    by_cases hp : p.1 = 0 ∧ p.2 = 0
    · rw [if_pos hp]
      exact ih count
    · rw [if_neg hp]
      obtain ⟨c, hc⟩ := get_cell_at_total u hwf ((x + p.1) % u.width) ((y + p.2) % u.height)
      rw [hc, Option.some_bind]
      exact ih (count + cellValue c)

lemma get_live_neighbor_count_total (u : Universe) (hwf : Wf u) (x y : Nat) :
    ∃ n, u.get_live_neighbor_count x y = some n :=
  countNeighbors_total u hwf x y _ 0

/-! ## The `tick` write loop -/

lemma tickWrite_length (u : Universe) :
    ∀ (ps : List (Nat × Nat)) (buf buf' : List Cell),
      u.tickWrite ps buf = some buf' → buf'.length = buf.length := by
  intro ps
  induction ps with
  | nil =>
    intro buf buf' h
    unfold Universe.tickWrite at h
    simp only [Option.some.injEq] at h
    rw [← h]
  | cons p ps ih =>
    intro buf buf' h
    unfold Universe.tickWrite at h
    obtain ⟨c, _, h⟩ := Option.bind_eq_some.mp h
    obtain ⟨n, _, h⟩ := Option.bind_eq_some.mp h
    obtain ⟨buf₁, hset, h⟩ := Option.bind_eq_some.mp h
    unfold vecSet at hset
    by_cases hi : u.get_cell_idx p.1 p.2 < buf.length
    · rw [if_pos hi] at hset
      simp only [Option.some.injEq] at hset
      rw [ih buf₁ buf' h, ← hset, List.length_set]
    · rw [if_neg hi] at hset
      simp at hset

lemma tickWrite_total (u : Universe) (hwf : Wf u) :
    ∀ (ps : List (Nat × Nat)) (buf : List Cell),
      buf.length = u.width * u.height →
      ∃ buf', u.tickWrite ps buf = some buf' := by
  intro ps
  induction ps with
  | nil => exact fun buf _ => ⟨buf, rfl⟩
  | cons p ps ih =>
    intro buf hlen
    obtain ⟨c, hc⟩ := get_cell_at_total u hwf p.1 p.2
    obtain ⟨n, hn⟩ := get_live_neighbor_count_total u hwf p.1 p.2
    have hi : u.get_cell_idx p.1 p.2 < buf.length := by
      rw [hlen]; exact get_cell_idx_lt u hwf.2.1 hwf.2.2 p.1 p.2
    obtain ⟨buf', hbuf'⟩ := ih (buf.set (u.get_cell_idx p.1 p.2) (Universe.next_cell c n))
      (by rw [List.length_set]; exact hlen)
    refine ⟨buf', ?_⟩
    unfold Universe.tickWrite
    rw [show u.cells.get? (u.get_cell_idx p.1 p.2) = some c from hc, Option.some_bind,
      hn, Option.some_bind]
    unfold vecSet
    rw [if_pos hi, Option.some_bind]
    exact hbuf'

lemma tickWrite_get_of_notMem (u : Universe) :
    ∀ (ps : List (Nat × Nat)) (buf buf' : List Cell) (j : Nat),
      u.tickWrite ps buf = some buf' →
      (∀ p ∈ ps, u.get_cell_idx p.1 p.2 ≠ j) →
      buf'.get? j = buf.get? j := by
  intro ps
  induction ps with
  | nil =>
    intro buf buf' j h _
    unfold Universe.tickWrite at h
    simp only [Option.some.injEq] at h
    rw [← h]
  | cons p ps ih =>
    intro buf buf' j h hj
    unfold Universe.tickWrite at h
    obtain ⟨c, _, h⟩ := Option.bind_eq_some.mp h
    obtain ⟨n, _, h⟩ := Option.bind_eq_some.mp h
    obtain ⟨buf₁, hset, h⟩ := Option.bind_eq_some.mp h
    unfold vecSet at hset
    by_cases hi : u.get_cell_idx p.1 p.2 < buf.length
    · rw [if_pos hi] at hset
      simp only [Option.some.injEq] at hset
      rw [ih buf₁ buf' j h (fun q hq => hj q (List.mem_cons_of_mem p hq)), ← hset,
        List.get?_set_ne _ _ (hj p (List.mem_cons_self p ps))]
    · rw [if_neg hi] at hset
      simp at hset

lemma tickWrite_get_of_mem (u : Universe) :
    ∀ (ps : List (Nat × Nat)) (buf buf' : List Cell) (p : Nat × Nat),
      u.tickWrite ps buf = some buf' →
      p ∈ ps → ps.Nodup →
      (∀ q ∈ ps, u.get_cell_idx q.1 q.2 = u.get_cell_idx p.1 p.2 → q = p) →
      ∀ c n, u.cells.get? (u.get_cell_idx p.1 p.2) = some c →
        u.get_live_neighbor_count p.1 p.2 = some n →
        buf'.get? (u.get_cell_idx p.1 p.2) = some (Universe.next_cell c n) := by
  intro ps
  induction ps with
  | nil => intro buf buf' p _ hp; exact absurd hp (List.not_mem_nil p)
  | cons q ps ih =>
    intro buf buf' p h hp hnd hinj c n hc hn
    unfold Universe.tickWrite at h
    obtain ⟨c₀, hc₀, hstep1⟩ := Option.bind_eq_some.mp h
    obtain ⟨n₀, hn₀, hstep2⟩ := Option.bind_eq_some.mp hstep1
    obtain ⟨buf₁, hset, hrec⟩ := Option.bind_eq_some.mp hstep2
    unfold vecSet at hset
    by_cases hi : u.get_cell_idx q.1 q.2 < buf.length
    swap
    · rw [if_neg hi] at hset
      simp at hset
    rw [if_pos hi] at hset
    simp only [Option.some.injEq] at hset
    rcases List.mem_cons.mp hp with hpq | hpmem
    · subst hpq
      have hnot : ∀ r ∈ ps, u.get_cell_idx r.1 r.2 ≠ u.get_cell_idx p.1 p.2 := by
        intro r hr he
        have hrp : r = p := hinj r (List.mem_cons_of_mem p hr) he
        subst hrp
        exact (List.nodup_cons.mp hnd).1 hr
      rw [tickWrite_get_of_notMem u ps buf₁ buf' (u.get_cell_idx p.1 p.2) hrec hnot, ← hset,
        List.get?_set_eq_of_lt _ hi]
      rw [hc₀] at hc
      rw [hn₀] at hn
      simp only [Option.some.injEq] at hc hn
      rw [hc, hn]
    · exact ih buf₁ buf' p hrec hpmem (List.nodup_cons.mp hnd).2
        (fun r hr => hinj r (List.mem_cons_of_mem q hr)) c n hc hn

/-! ## `loopPairs` facts -/

lemma mem_loopPairs {w h : Nat} {p : Nat × Nat} :
    p ∈ Universe.loopPairs w h ↔ p.1 < w ∧ p.2 < h := by
  obtain ⟨a, b⟩ := p
  unfold Universe.loopPairs
  rw [List.mem_product]
  simp [List.mem_range]

lemma nodup_loopPairs (w h : Nat) : (Universe.loopPairs w h).Nodup :=
  (List.nodup_range w).product (List.nodup_range h)

/-! ## Characterization of `tick` -/

lemma tick_spec_aux (u : Universe) (hwf : Wf u) :
    ∃ u', u.tick = some u' ∧
      u'.width = u.width ∧ u'.height = u.height ∧
      u'.buffered_cells_ = u.cells ∧ u'.cells.length = u.width * u.height ∧
      ∀ x y, x < u.width → y < u.height →
        ∀ c n, u.get_cell_at x y = some c →
          u.get_live_neighbor_count x y = some n →
          u'.get_cell_at x y = some (Universe.next_cell c n) := by
  obtain ⟨buf', hbuf'⟩ := tickWrite_total u hwf (Universe.loopPairs u.width u.height)
    u.buffered_cells_ hwf.1.2
  refine ⟨{ u with cells := buf', buffered_cells_ := u.cells }, ?_, rfl, rfl, rfl, ?_, ?_⟩
  · unfold Universe.tick
    rw [hbuf']
    rfl
  · show buf'.length = _
    rw [tickWrite_length u _ _ _ hbuf', hwf.1.2]
  · intro x y hx hy c n hc hn
    show buf'.get? (u.get_cell_idx x y) = some (Universe.next_cell c n)
    have hmem : (x, y) ∈ Universe.loopPairs u.width u.height :=
      mem_loopPairs.mpr ⟨hx, hy⟩
    have hinj : ∀ q ∈ Universe.loopPairs u.width u.height,
        u.get_cell_idx q.1 q.2 = u.get_cell_idx x y → q = (x, y) := by
      intro q hq he
      rcases q with ⟨a, b⟩
      obtain ⟨hq1, hq2⟩ := mem_loopPairs.mp hq
      obtain ⟨e1, e2⟩ := get_cell_idx_inj u hq1 hq2 hx hy he
      simp only [Prod.mk.injEq]
      exact ⟨e1, e2⟩
    exact tickWrite_get_of_mem u _ _ _ (x, y) hbuf' hmem
      (nodup_loopPairs _ _) hinj c n hc hn

lemma tick_wf (u : Universe) (hwf : Wf u) :
    ∃ u', u.tick = some u' ∧ Wf u' := by
  obtain ⟨u', ht, hw, hh, hbuf, hlen, _⟩ := tick_spec_aux u hwf
  refine ⟨u', ht, ⟨⟨?_, ?_⟩, ?_, ?_⟩⟩
  · rw [hlen, hw, hh]
  · rw [hbuf, hw, hh]; exact hwf.1.1
  · rw [hw]; exact hwf.2.1
  · rw [hh]; exact hwf.2.2

/-! ## Characterization of `resize_to` -/

lemma sampleCells_spec (u : Universe) (hwf : Wf u) (w : Nat) :
    ∀ is : List Nat, ∃ l, u.sampleCells w is = some l ∧ l.length = is.length ∧
      ∀ k i, is.get? k = some i → l.get? k = u.get_cell_at (i % w) (i / w) := by
  intro is
  induction is with
  | nil =>
    refine ⟨[], rfl, rfl, ?_⟩
    intro k i h
    simp at h
  | cons i is ih =>
    obtain ⟨l, hl, hlen, hget⟩ := ih
    obtain ⟨c, hc⟩ := get_cell_at_total u hwf (i % w) (i / w)
    refine ⟨c :: l, ?_, by simp [hlen], ?_⟩
    · unfold Universe.sampleCells
      rw [hc, Option.some_bind, hl]
      rfl
    · intro k j hk
      cases k with
      | zero =>
        simp only [List.get?] at hk
        injection hk with hk
        subst hk
        exact hc.symm
      | succ k =>
        exact hget k j hk

lemma resize_spec_aux (u : Universe) (hwf : Wf u) (w h : Nat) :
    ∃ u', u.resize_to w h = some u' ∧ u'.width = w ∧ u'.height = h ∧
      u'.buffered_cells_ = u'.cells ∧ u'.cells.length = w * h ∧
      ∀ i, i < w * h → u'.cells.get? i = u.get_cell_at (i % w) (i / w) := by
  obtain ⟨l, hl, hlen, hget⟩ := sampleCells_spec u hwf w (List.range (w * h))
  refine ⟨{ u with width := w, height := h, cells := l, buffered_cells_ := l },
    ?_, rfl, rfl, rfl, ?_, ?_⟩
  · unfold Universe.resize_to
    rw [hl]
    rfl
  · show l.length = _
    rw [hlen, List.length_range]
  · intro i hi
    exact hget i i (List.get?_range hi)

lemma resize_wf (u : Universe) (hwf : Wf u) {w h : Nat} (hw : 1 ≤ w) (hh : 1 ≤ h) :
    ∃ u', u.resize_to w h = some u' ∧ Wf u' := by
  obtain ⟨u', hr, hw', hh', hbuf, hlen, _⟩ := resize_spec_aux u hwf w h
  refine ⟨u', hr, ⟨⟨?_, ?_⟩, ?_, ?_⟩⟩
  · rw [hlen, hw', hh']
  · rw [hbuf, hlen, hw', hh']
  · rw [hw']; exact hw
  · rw [hh']; exact hh

/-! ## Shape preservation for the remaining mutators -/

/-- The four facts every in-place editing operation preserves. -/
def SameShape (u u' : Universe) : Prop :=
  u'.width = u.width ∧ u'.height = u.height ∧
    u'.cells.length = u.cells.length ∧
    u'.buffered_cells_ = u.buffered_cells_

lemma sameShape_rfl (u : Universe) : SameShape u u := ⟨rfl, rfl, rfl, rfl⟩

lemma sameShape_trans {u v w : Universe} (h1 : SameShape u v)
    (h2 : SameShape v w) : SameShape u w := by
  obtain ⟨a1, b1, c1, d1⟩ := h1
  obtain ⟨a2, b2, c2, d2⟩ := h2
  exact ⟨a2.trans a1, b2.trans b1, c2.trans c1, d2.trans d1⟩

lemma bufferInv_of_sameShape {u u' : Universe} (hinv : BufferInv u)
    (hs : SameShape u u') : BufferInv u' := by
  obtain ⟨hw, hh, hc, hb⟩ := hs
  exact ⟨by rw [hc, hw, hh]; exact hinv.1, by rw [hb, hw, hh]; exact hinv.2⟩

lemma wf_of_sameShape {u u' : Universe} (hwf : Wf u) (hs : SameShape u u') : Wf u' :=
  ⟨bufferInv_of_sameShape hwf.1 hs, by rw [hs.1]; exact hwf.2.1,
    by rw [hs.2.1]; exact hwf.2.2⟩

lemma set_cell_at_sameShape {u u' : Universe} {x y : Nat} {c : Cell}
    (h : u.set_cell_at x y c = some u') : SameShape u u' :=
  set_cell_at_fields h

lemma toggle_cell_at_sameShape {u u' : Universe} {x y : Nat}
    (h : u.toggle_cell_at x y = some u') : SameShape u u' :=
  toggle_cell_at_fields h

lemma xWalkLoop_sameShape (slope : ℚ) :
    ∀ (xs : List Nat) (y : ℚ) (u u' : Universe),
      Universe.xWalkLoop slope xs y u = some u' → SameShape u u' := by
  intro xs
  induction xs with
  | nil =>
    intro y u u' h
    simp only [Universe.xWalkLoop, Option.some.injEq] at h
    rw [← h]
    exact sameShape_rfl u
  | cons x xs ih =>
    intro y u u' h
    unfold Universe.xWalkLoop at h
    obtain ⟨u₁, htog, hrec⟩ := Option.bind_eq_some.mp h
    exact sameShape_trans (toggle_cell_at_sameShape htog) (ih _ u₁ u' hrec)

lemma yWalkLoop_sameShape (slope : ℚ) :
    ∀ (ys : List Nat) (x : ℚ) (u u' : Universe),
      Universe.yWalkLoop slope ys x u = some u' → SameShape u u' := by
  intro ys
  induction ys with
  | nil =>
    intro x u u' h
    simp only [Universe.yWalkLoop, Option.some.injEq] at h
    rw [← h]
    exact sameShape_rfl u
  | cons y ys ih =>
    intro x u u' h
    unfold Universe.yWalkLoop at h
    obtain ⟨u₁, htog, hrec⟩ := Option.bind_eq_some.mp h
    exact sameShape_trans (toggle_cell_at_sameShape htog) (ih _ u₁ u' hrec)

lemma toggle_cells_between_sameShape {u u' : Universe} {x1 y1 x2 y2 : Nat}
    (h : u.toggle_cells_between x1 y1 x2 y2 = some u') : SameShape u u' := by
  unfold Universe.toggle_cells_between at h
  by_cases h0 : x1 = x2 ∧ y1 = y2
  · rw [if_pos h0] at h
    simp only [Option.some.injEq] at h
    rw [← h]
    exact sameShape_rfl u
  rw [if_neg h0] at h
  by_cases hxp : Universe.x_is_param x1 y1 x2 y2
  · rw [if_pos hxp] at h
    by_cases hlt : x2 < x1
    · rw [if_pos hlt] at h
      exact xWalkLoop_sameShape _ _ _ u u' h
    · rw [if_neg hlt] at h
      exact xWalkLoop_sameShape _ _ _ u u' h
  · rw [if_neg hxp] at h
    by_cases hlt : y2 < y1
    · rw [if_pos hlt] at h
      exact yWalkLoop_sameShape _ _ _ u u' h
    · rw [if_neg hlt] at h
      exact yWalkLoop_sameShape _ _ _ u u' h

lemma clearLoop_sameShape :
    ∀ (ps : List (Nat × Nat)) (u u' : Universe),
      Universe.clearLoop u ps = some u' → SameShape u u' := by
  intro ps
  induction ps with
  | nil =>
    intro u u' h
    simp only [Universe.clearLoop, Option.some.injEq] at h
    rw [← h]
    exact sameShape_rfl u
  | cons p ps ih =>
    intro u u' h
    unfold Universe.clearLoop at h
    obtain ⟨u₁, hset, hrec⟩ := Option.bind_eq_some.mp h
    exact sameShape_trans (set_cell_at_sameShape hset) (ih u₁ u' hrec)

lemma clear_sameShape {u u' : Universe} (h : u.clear = some u') : SameShape u u' :=
  clearLoop_sameShape _ u u' h

/-! ## Claim theorems -/

/-- C1: for every well-formed universe, `tick` succeeds and the cell at
every in-bounds coordinate afterwards equals `next_cell` (the source's
rule table, arms in priority order) applied to the pre-tick cell state
and the pre-tick toroidal live-neighbor count; the counts come from the
previous generation only (`tickWrite` reads `u.cells` exclusively; the
back buffer is only written, and ends up holding the old generation
after the swap, witnessed by `u'.buffered_cells_ = u.cells`). -/
theorem tick_applies_rules (u : Universe) (hwf : Wf u) :
    ∃ u', u.tick = some u' ∧ u'.width = u.width ∧ u'.height = u.height ∧
      u'.buffered_cells_ = u.cells ∧
      ∀ x y, x < u.width → y < u.height →
        ∀ c n, u.get_cell_at x y = some c →
          u.get_live_neighbor_count x y = some n →
          u'.get_cell_at x y = some (Universe.next_cell c n) := by
  obtain ⟨u', h1, h2, h3, h4, _, h6⟩ := tick_spec_aux u hwf
  exact ⟨u', h1, h2, h3, h4, h6⟩

/-- C1 witness: the theorem applied to the 3×3 seeded universe. -/
theorem tick_applies_rules_witness :
    ∃ u', (Universe.new 3 3).tick = some u' ∧
      u'.width = (Universe.new 3 3).width ∧
      u'.height = (Universe.new 3 3).height ∧
      u'.buffered_cells_ = (Universe.new 3 3).cells ∧
      ∀ x y, x < (Universe.new 3 3).width → y < (Universe.new 3 3).height →
        ∀ c n, (Universe.new 3 3).get_cell_at x y = some c →
          (Universe.new 3 3).get_live_neighbor_count x y = some n →
          u'.get_cell_at x y = some (Universe.next_cell c n) :=
  tick_applies_rules (Universe.new 3 3) (by decide)

/-- C3: `resize_to` succeeds on a well-formed universe, sets the new
dimensions, leaves both buffers equal, and places at each new index `i`
the pre-resize `get_cell_at (i % W, i / W)` (which wraps toroidally
over the old dimensions, tiling old content when growing). -/
theorem resize_samples_old_grid (u : Universe) (hwf : Wf u)
    (w h : Nat) (hw : 1 ≤ w) (hh : 1 ≤ h) :
    ∃ u', u.resize_to w h = some u' ∧ u'.width = w ∧ u'.height = h ∧
      u'.buffered_cells_ = u'.cells ∧
      ∀ i, i < w * h → u'.cells.get? i = u.get_cell_at (i % w) (i / w) := by
  obtain ⟨u', h1, h2, h3, h4, _, h6⟩ := resize_spec_aux u hwf w h
  exact ⟨u', h1, h2, h3, h4, h6⟩

/-- C3 witness: growing a seeded 2×2 universe to 3×3. -/
theorem resize_samples_old_grid_witness :
    ∃ u', (Universe.new 2 2).resize_to 3 3 = some u' ∧ u'.width = 3 ∧
      u'.height = 3 ∧ u'.buffered_cells_ = u'.cells ∧
      ∀ i, i < 3 * 3 →
        u'.cells.get? i = (Universe.new 2 2).get_cell_at (i % 3) (i / 3) :=
  resize_samples_old_grid (Universe.new 2 2) (by decide) 3 3 (by decide) (by decide)

/-- C4: reads always succeed (never panic) for arbitrary coordinates,
and wrap: `get_cell_at x y` equals `get_cell_at (x % w) (y % h)`. -/
theorem get_cell_at_wraps (u : Universe) (hwf : Wf u) (x y : Nat) :
    ∃ c, u.get_cell_at x y = some c ∧
      u.get_cell_at (x % u.width) (y % u.height) = some c := by
  obtain ⟨c, hc⟩ := get_cell_at_total u hwf x y
  refine ⟨c, hc, ?_⟩
  have hidx : u.get_cell_idx (x % u.width) (y % u.height) = u.get_cell_idx x y := by
    unfold Universe.get_cell_idx
    rw [Nat.mod_mod_of_dvd _ dvd_rfl, Nat.mod_mod_of_dvd _ dvd_rfl]
  unfold Universe.get_cell_at at hc ⊢
  rw [hidx]
  exact hc

/-- C4 witness: an out-of-range read on the seeded 2×3 universe. -/
theorem get_cell_at_wraps_witness :
    ∃ c, (Universe.new 2 3).get_cell_at 7 5 = some c ∧
      (Universe.new 2 3).get_cell_at (7 % (Universe.new 2 3).width)
        (5 % (Universe.new 2 3).height) = some c :=
  get_cell_at_wraps (Universe.new 2 3) (by decide) 7 5

/-- C5: an out-of-range `set_cell_at` (bounds-checked against the
unwrapped width/height) returns the universe unchanged, with no error. -/
theorem set_cell_at_out_of_range_noop (u : Universe) (x y : Nat) (c : Cell)
    (h : u.width ≤ x ∨ u.height ≤ y) : u.set_cell_at x y c = some u := by
  apply set_cell_at_of_not_lt
  rcases h with h | h
  · exact fun hc => absurd hc.1 (Nat.not_lt.mpr h)
  · exact fun hc => absurd hc.2 (Nat.not_lt.mpr h)

/-- C5 witness: writing at x = 5 on a 2×2 universe is a no-op. -/
theorem set_cell_at_out_of_range_noop_witness :
    (Universe.new 2 2).set_cell_at 5 0 Cell.Alive = some (Universe.new 2 2) :=
  set_cell_at_out_of_range_noop (Universe.new 2 2) 5 0 Cell.Alive
    (Or.inl (by decide))

/-- Reading the freshly seeded grid of `new` at any in-range index. -/
lemma new_cells_get {w h i : Nat} (hi : i < w * h) :
    (Universe.new w h).cells.get? i =
      some (if i % 2 = 0 ∨ i % 7 = 0 then Cell.Alive else Cell.Dead) := by
  show ((List.range (w * h)).map _).get? i = _
  rw [List.get?_map, List.get?_range hi]
  rfl

/-- C6: after `new w h`, the cell at row-major index `i = y*w + x` is
Alive exactly when `i % 2 = 0` or `i % 7 = 0`, and the back buffer is
an identical copy of the seed. -/
theorem new_seed_pattern (w h : Nat) (hw : 1 ≤ w) (hh : 1 ≤ h)
    (x y : Nat) (hx : x < w) (hy : y < h) :
    ((Universe.new w h).cells.get? (y * w + x) = some Cell.Alive ↔
      ((y * w + x) % 2 = 0 ∨ (y * w + x) % 7 = 0)) ∧
    (Universe.new w h).buffered_cells_ = (Universe.new w h).cells := by
  refine ⟨?_, rfl⟩
  rw [new_cells_get (rowmajor_lt hx hy)]
  by_cases hc : (y * w + x) % 2 = 0 ∨ (y * w + x) % 7 = 0
  · rw [if_pos hc]
    exact ⟨fun _ => hc, fun _ => rfl⟩
  · rw [if_neg hc]
    constructor
    · intro he
      injection he with he
      exact absurd he (by decide)
    · intro hp
      exact absurd hp hc

/-- C6 witness: the theorem at w = 3, h = 2, (x, y) = (2, 1). -/
theorem new_seed_pattern_witness :
    ((Universe.new 3 2).cells.get? (1 * 3 + 2) = some Cell.Alive ↔
      ((1 * 3 + 2) % 2 = 0 ∨ (1 * 3 + 2) % 7 = 0)) ∧
    (Universe.new 3 2).buffered_cells_ = (Universe.new 3 2).cells :=
  new_seed_pattern 3 2 (by decide) (by decide) 2 1 (by decide) (by decide)

/-- C7: on any well-formed universe, `resize_to` to any dimensions at
least 1×1 succeeds and a following `tick` succeeds — no panic, even at
1×1 where the neighbor offsets degenerate. -/
theorem resize_then_tick_total (u : Universe) (hwf : Wf u)
    (w h : Nat) (hw : 1 ≤ w) (hh : 1 ≤ h) :
    ∃ u' u'', u.resize_to w h = some u' ∧ u'.tick = some u'' := by
  obtain ⟨u', hr, hwf'⟩ := resize_wf u hwf hw hh
  obtain ⟨u'', ht, _⟩ := tick_wf u' hwf'
  exact ⟨u', u'', hr, ht⟩

/-- C7 witness: shrink a seeded 4×3 universe to 1×1 and tick. -/
theorem resize_then_tick_total_witness :
    ∃ u' u'', (Universe.new 4 3).resize_to 1 1 = some u' ∧
      u'.tick = some u'' :=
  resize_then_tick_total (Universe.new 4 3) (by decide) 1 1 (by decide) (by decide)

/-- C10: in a 1×1 universe the offset lists degenerate to `[0, 0, 1]`,
only four of the nine offset pairs are skipped as `(0, 0)`, and the
single cell is counted five times: the count is 5 when it is Alive and
0 when it is Dead. -/
theorem neighbor_count_1x1 (u : Universe) (hwf : Wf u)
    (hw : u.width = 1) (hh : u.height = 1) :
    (u.cells = [Cell.Alive] → u.get_live_neighbor_count 0 0 = some 5) ∧
    (u.cells = [Cell.Dead] → u.get_live_neighbor_count 0 0 = some 0) := by
  have hop : Universe.offsetPairs u.width u.height =
      [(0, 0), (0, 0), (0, 1), (0, 0), (0, 0), (0, 1), (1, 0), (1, 0), (1, 1)] := by
    rw [hw, hh]
    rfl
  constructor <;> intro hc <;>
    · unfold Universe.get_live_neighbor_count
      rw [hop]
      simp [Universe.countNeighbors, Universe.get_cell_at, Universe.get_cell_idx,
        hw, hh, hc, cellValue]

/-- C10 witness: the seeded 1×1 universe has its single cell Alive, and
its self-neighbor count is 5. -/
theorem neighbor_count_1x1_witness :
    (Universe.new 1 1).get_live_neighbor_count 0 0 = some 5 :=
  (neighbor_count_1x1 (Universe.new 1 1) (by decide) (by decide) (by decide)).1
    (by decide)

/-- C2 counterexample: the claim says a perfectly diagonal segment
selects x as the driving axis, but on the diagonal from (0,0) to (2,2)
the source's `x_is_param = (|Δy| < |Δx|)` is false: y drives. -/
theorem diag_x_is_param_false : Universe.x_is_param 0 0 2 2 = false := by
  unfold Universe.x_is_param
  rw [decide_eq_false_iff_not]
  exact lt_irrefl _

/-- C2 (amended): for distinct endpoints with `|Δx| = |Δy|`, the strict
less-than favors y: `x_is_param` is false and `toggle_cells_between`
takes the y-driven branch, stepping integer y values strictly between
the endpoint y values while interpolating and rounding x. -/
theorem diag_y_drives (u : Universe) (x1 y1 x2 y2 : Nat)
    (hne : ¬(x1 = x2 ∧ y1 = y2))
    (hdiag : |(x2 : ℚ) - (x1 : ℚ)| = |(y2 : ℚ) - (y1 : ℚ)|) :
    Universe.x_is_param x1 y1 x2 y2 = false ∧
    u.toggle_cells_between x1 y1 x2 y2 =
      if y2 < y1 then
        Universe.yWalk u y2 y1 (x2 : ℚ)
          ((-((x2 : ℚ) - (x1 : ℚ))) / (-((y2 : ℚ) - (y1 : ℚ))))
      else
        Universe.yWalk u y1 y2 (x1 : ℚ)
          (((x2 : ℚ) - (x1 : ℚ)) / ((y2 : ℚ) - (y1 : ℚ))) := by
  have hxp : Universe.x_is_param x1 y1 x2 y2 = false := by
    unfold Universe.x_is_param
    rw [decide_eq_false_iff_not, hdiag]
    exact lt_irrefl _
  refine ⟨hxp, ?_⟩
  unfold Universe.toggle_cells_between
  rw [if_neg hne, hxp]
  simp only [Bool.false_eq_true, if_false]

/-- C2 witness: the amended theorem on the diagonal (0,0)–(2,2) of the
seeded 3×3 universe. -/
theorem diag_y_drives_witness :
    Universe.x_is_param 0 0 2 2 = false ∧
    (Universe.new 3 3).toggle_cells_between 0 0 2 2 =
      if (2 : Nat) < (0 : Nat) then
        Universe.yWalk (Universe.new 3 3) 2 0 (((0 : Nat) : ℚ))
          ((-(((2 : Nat) : ℚ) - ((0 : Nat) : ℚ))) / (-(((2 : Nat) : ℚ) - ((0 : Nat) : ℚ))))
      else
        Universe.yWalk (Universe.new 3 3) 0 2 (((0 : Nat) : ℚ))
          ((((2 : Nat) : ℚ) - ((0 : Nat) : ℚ)) / (((2 : Nat) : ℚ) - ((0 : Nat) : ℚ))) :=
  diag_y_drives (Universe.new 3 3) 0 0 2 2 (by decide) rfl

/-- C8: on any well-formed universe with width at least 5 and height at
least 2, `toggle_cells_between 1 1 4 1` succeeds and toggles exactly
the cells (2,1) and (3,1); every other cell, the endpoints included,
is unchanged. -/
theorem toggle_between_1_1_4_1 (u : Universe) (hwf : Wf u)
    (hw : 5 ≤ u.width) (hh : 2 ≤ u.height) :
    ∃ u', u.toggle_cells_between 1 1 4 1 = some u' ∧
      u'.width = u.width ∧ u'.height = u.height ∧
      ∀ a b, a < u.width → b < u.height →
        u'.get_cell_at a b =
          if (a = 2 ∧ b = 1) ∨ (a = 3 ∧ b = 1)
          then (u.get_cell_at a b).map cellToggled
          else u.get_cell_at a b := by
  have h2w : 2 < u.width := by omega
  have h3w : 3 < u.width := by omega
  have h1h : 1 < u.height := by omega
  obtain ⟨u₁, htog1, hwf₁, hw₁, hh₁, hbuf₁, hcell₁⟩ :=
    toggle_cell_at_spec u hwf h2w h1h
  obtain ⟨u₂, htog2, hwf₂, hw₂, hh₂, hbuf₂, hcell₂⟩ :=
    @toggle_cell_at_spec u₁ hwf₁ 3 1 (by rw [hw₁]; exact h3w)
      (by rw [hh₁]; exact h1h)
  have e1 : (round ((1 : ℚ) + 0)).toNat = 1 := by norm_num
  have e2 : (round ((1 : ℚ) + 0 + 0)).toNat = 1 := by norm_num
  have key : Universe.xWalkLoop 0 [2, 3] 1 u = some u₂ := by
    simp only [Universe.xWalkLoop]
    rw [e1, e2, htog1, Option.some_bind, htog2, Option.some_bind]
  have hxp : Universe.x_is_param 1 1 4 1 = true := by
    unfold Universe.x_is_param
    rw [decide_eq_true_eq]
    norm_num
  have hcalc : u.toggle_cells_between 1 1 4 1 = some u₂ := by
    unfold Universe.toggle_cells_between
    rw [if_neg (by decide), hxp, if_pos rfl, if_neg (by decide : ¬(4 < 1))]
    unfold Universe.xWalk
    rw [show List.range' (1 + 1) (4 - (1 + 1)) = [2, 3] from rfl]
    rw [show (((1 : Nat) : ℚ) - ((1 : Nat) : ℚ)) / (((4 : Nat) : ℚ) - ((1 : Nat) : ℚ)) = 0
      from by norm_num]
    rw [show ((1 : Nat) : ℚ) = 1 from by norm_num]
    exact key
  refine ⟨u₂, hcalc, by rw [hw₂, hw₁], by rw [hh₂, hh₁], ?_⟩
  intro a b ha hb
  rw [hcell₂ a b (by rw [hw₁]; exact ha) (by rw [hh₁]; exact hb),
    hcell₁ a b ha hb]
  by_cases h2 : a = 2 ∧ b = 1
  · obtain ⟨ha2, hb1⟩ := h2
    subst ha2
    subst hb1
    simp
  · by_cases h3 : a = 3 ∧ b = 1
    · obtain ⟨ha3, hb1⟩ := h3
      subst ha3
      subst hb1
      simp
    · rw [if_neg h3, if_neg h2, if_neg (fun hor => hor.elim h2 h3)]

/-- C8 witness: the theorem applied to the seeded 5×2 universe. -/
theorem toggle_between_1_1_4_1_witness :
    ∃ u', (Universe.new 5 2).toggle_cells_between 1 1 4 1 = some u' ∧
      u'.width = (Universe.new 5 2).width ∧
      u'.height = (Universe.new 5 2).height ∧
      ∀ a b, a < (Universe.new 5 2).width → b < (Universe.new 5 2).height →
        u'.get_cell_at a b =
          if (a = 2 ∧ b = 1) ∨ (a = 3 ∧ b = 1)
          then ((Universe.new 5 2).get_cell_at a b).map cellToggled
          else (Universe.new 5 2).get_cell_at a b :=
  toggle_between_1_1_4_1 (Universe.new 5 2) (by decide) (by decide) (by decide)

/-- C9: the buffer-length invariant `cells.length = nextCells.length =
width * height` is established by `new` and preserved by every mutating
public operation (`tick`, `set_cell_at`, `toggle_cell_at`,
`toggle_cells_between`, `clear`, `resize_to`, and the two
display-parameter setters); `get_cell_at` takes the universe immutably
and cannot disturb it. -/
theorem buffer_length_invariant :
    (∀ w h, 1 ≤ w → 1 ≤ h → BufferInv (Universe.new w h)) ∧
    (∀ u u', Wf u → u.tick = some u' → BufferInv u') ∧
    (∀ u u' x y c, Wf u → u.set_cell_at x y c = some u' → BufferInv u') ∧
    (∀ u u' x y, Wf u → u.toggle_cell_at x y = some u' → BufferInv u') ∧
    (∀ u u' x1 y1 x2 y2, Wf u →
      u.toggle_cells_between x1 y1 x2 y2 = some u' → BufferInv u') ∧
    (∀ u u', Wf u → u.clear = some u' → BufferInv u') ∧
    (∀ u u' w h, Wf u → 1 ≤ w → 1 ≤ h →
      u.resize_to w h = some u' → BufferInv u') ∧
    (∀ u s, Wf u → BufferInv (u.set_square_size s)) ∧
    (∀ u s, Wf u → BufferInv (u.set_square_spacing s)) := by
  refine ⟨?_, ?_, ?_, ?_, ?_, ?_, ?_, ?_, ?_⟩
  · intro w h _ _
    constructor <;>
      · show ((List.range (w * h)).map _).length = w * h
        rw [List.length_map, List.length_range]
  · intro u u' hwf ht
    obtain ⟨u₀, ht₀, hwf₀⟩ := tick_wf u hwf
    rw [ht₀] at ht
    injection ht with ht
    rw [← ht]
    exact hwf₀.1
  · intro u u' x y c hwf hs
    exact (set_cell_at_wf hwf hs).1
  · intro u u' x y hwf htg
    exact (toggle_cell_at_wf hwf htg).1
  · intro u u' x1 y1 x2 y2 hwf htcb
    exact bufferInv_of_sameShape hwf.1 (toggle_cells_between_sameShape htcb)
  · intro u u' hwf hc
    exact bufferInv_of_sameShape hwf.1 (clear_sameShape hc)
  · intro u u' w h hwf hw hh hr
    obtain ⟨u₀, hr₀, hwf₀⟩ := resize_wf u hwf hw hh
    rw [hr₀] at hr
    injection hr with hr
    rw [← hr]
    exact hwf₀.1
  · intro u s hwf
    exact hwf.1
  · intro u s hwf
    exact hwf.1

/-- C9 witness: the invariant holds for the seeded 2×3 universe and
after changing its square size. -/
theorem buffer_length_invariant_witness :
    BufferInv (Universe.new 2 3) ∧
    BufferInv ((Universe.new 2 3).set_square_size 9) :=
  ⟨buffer_length_invariant.1 2 3 (by decide) (by decide),
    buffer_length_invariant.2.2.2.2.2.2.2.1 (Universe.new 2 3) 9 (by decide)⟩
